import Mathlib

/-!
Shallow embedding of `src/index.js` (snow-scraper): the cell value extractor
and block segmenter (`extractBlockData`), the elevation scalar
(`getResortElevation`), `findMaxBlockLength`, the row extraction pipeline
(`scrapeUrl` minus the network fetch, which is modelled as an `Except`
outcome at the route level), and the `/scrape` route handler with its
stale-while-revalidate cache.
-/

namespace SnowScraper

/-- The six data types dispatched on by the `switch (type)` in
`extractBlockData` (src/index.js lines 48-80). -/
inductive DataType
  | snow
  | temperature
  | wind
  | freezingLevel
  | rain
  | phrases
deriving DecidableEq, Repr

/-- A value pushed into a block: `parseFloat` result (a number, modelled as a
rational), the sentinel string `'-'` for a present container whose raw value
attribute is missing, or a phrase string (src/index.js lines 84-86). -/
inductive Val
  | num (q : Rat)
  | dash
  | str (s : String)
deriving DecidableEq, Repr

/-- One `td.forecast-table__cell` of a forecast row, holding exactly the data
the extractor reads: per data type, whether the type-specific container
element is found (`containerDiv.length`), the numeric raw attribute inside it
(`none` models a missing or empty attribute string, which is falsy in JS),
whether the container's class list includes the
`forecast-table__container--border` marker, and whether extraction throws for
that type (the `catch` at line 98). The phrase text is the trimmed text of
the phrase span (empty when the span is missing). -/
structure Cell where
  container : DataType → Bool
  raw : DataType → Option Rat
  phraseText : String
  border : DataType → Bool
  throws : DataType → Bool

/-- The per-type numeric transform applied when the raw attribute is truthy:
`+1` for temperature (line 57), `+100` for freezing level (line 68), `/10`
for rain (line 73), identity for snow and wind. -/
def transform : DataType → Rat → Rat
  | .temperature, v => v + 1
  | .freezingLevel, v => v + 100
  | .rain, v => v / 10
  | _, v => v

/-- The body of the `cells.each` callback up to the push (src/index.js lines
44-90): `none` when the cell is skipped (extraction threw, or the
type-specific container is absent, line 82), otherwise the parsed value
together with the container's border flag (line 91). -/
def extractCell (c : Cell) (t : DataType) : Option (Val × Bool) :=
  if c.throws t then none
  else if !c.container t then none
  else
    let parsedValue : Val :=
      if t = .phrases then .str c.phraseText
      else
        match c.raw t with
        | some v => .num (transform t v)
        | none => .dash
    some (parsedValue, c.border t)

/-- The segmentation loop of `extractBlockData` (src/index.js lines 43-101):
walk the cells carrying the `currentBlock` accumulator; a skipped cell leaves
the state untouched; a present cell's value is appended and the block is
closed when the container has the border marker or this is the last cell of
the row (`i === cells.length - 1`, i.e. the remaining tail is empty). A
`currentBlock` still open when the loop ends is dropped (it is never pushed
to `blocks`). -/
def segGo (t : DataType) : List Cell → List Val → List (List Val)
  | [], _ => []
  | c :: rest, cur =>
    match extractCell c t with
    | none => segGo t rest cur
    | some (v, border) =>
      if border || rest.isEmpty then (cur ++ [v]) :: segGo t rest []
      else segGo t rest (cur ++ [v])

/-- `extractBlockData(row, $, type)` (src/index.js lines 34-103) over the
row's list of `td.forecast-table__cell` cells; a missing row or a row with no
cells yields `[]` (lines 35-38). -/
def extractBlockData (cells : List Cell) (t : DataType) : List (List Val) :=
  if cells.isEmpty then [] else segGo t cells []

/-- The values, in encounter order, of the cells the extractor reports
present (the cells that contribute to segmentation). -/
def presentVals (t : DataType) (cells : List Cell) : List Val :=
  cells.filterMap fun c => (extractCell c t).map Prod.fst

/-- The contents of the `currentBlock` accumulator when the loop of
`extractBlockData` finishes, starting from accumulator `cur`: exactly the
values that `segGo` drops. -/
def finalPending (t : DataType) : List Cell → List Val → List Val
  | [], cur => cur
  | c :: rest, cur =>
    match extractCell c t with
    | none => finalPending t rest cur
    | some (v, border) =>
      if border || rest.isEmpty then finalPending t rest []
      else finalPending t rest (cur ++ [v])

/-- The JS number-or-null result of `getResortElevation`: `null`, `NaN`
(what `parseInt` returns on a string with no leading integer), or an
integer. -/
inductive ElevationValue
  | null
  | nan
  | int (n : Int)
deriving DecidableEq, Repr

/-- JS `parseInt(s, 10)`: skip leading whitespace, read an optional sign and
then leading decimal digits; `none` models the `NaN` result when no digit is
found. -/
def parseIntJS (s : String) : Option Int :=
  let cs := s.toList.dropWhile fun ch => ch == ' ' || ch == '\t' || ch == '\n' || ch == '\r'
  let signed : Int × List Char :=
    match cs with
    | '-' :: rest => (-1, rest)
    | '+' :: rest => (1, rest)
    | _ => (1, cs)
  let ds := signed.2.takeWhile Char.isDigit
  if ds.isEmpty then none
  else some (signed.1 * (ds.foldl (fun acc ch => acc * 10 + (ch.toNat - 48)) 0 : Nat))

/-- One fetched document, holding what the pipeline reads: the cell list of
each `forecast-table__row` (empty when the row is missing from the page), and
the elevation text — `none` when no `.elevation-control__list` element
exists, otherwise the text of its `.elevation-control__link--bot .height`
element (the empty string when that inner element is missing, since
cheerio's `.text()` returns `""` on an empty selection). -/
structure Document where
  snowRow : List Cell
  tempRow : List Cell
  windRow : List Cell
  flRow : List Cell
  rainRow : List Cell
  phrasesRow : List Cell
  elevationList : Option String

/-- `getResortElevation($)` (src/index.js lines 17-27): `null` when the
elevation list is absent or the height text is empty (falsy), otherwise
`parseInt(text, 10)` — which is `NaN`, not `null`, when the text has no
leading integer. -/
def getResortElevation (d : Document) : ElevationValue :=
  match d.elevationList with
  | none => .null
  | some s =>
    if s = "" then .null
    else
      match parseIntJS s with
      | some n => .int n
      | none => .nan

/-- `findMaxBlockLength(blocks)` (src/index.js lines 29-32): `0` for an
empty sequence, otherwise `Math.max` over the block lengths. -/
def findMaxBlockLength (blocks : List (List Val)) : Nat :=
  if blocks.isEmpty then 0
  else (blocks.map List.length).foldl max 0

/-- The object returned by `scrapeUrl` (src/index.js lines 136-147). -/
structure ScrapeResult where
  success : Bool
  resort : String
  bottomElevation : ElevationValue
  snowBlocks : List (List Val)
  temperatureBlocks : List (List Val)
  windBlocks : List (List Val)
  freezinglevelBlocks : List (List Val)
  rainBlocks : List (List Val)
  phrasesBlocks : List (List Val)
  maxSnowBlockLength : Nat
deriving DecidableEq, Repr

/-- The pure part of `scrapeUrl` (src/index.js lines 108-148) on an already
fetched and parsed document; the fetch itself, which can fail, is modelled by
the `Except` outcome fed to the route handler. -/
def scrapeUrl (url : String) (d : Document) : ScrapeResult :=
  let snowBlocks := extractBlockData d.snowRow .snow
  { success := true
    resort := url
    bottomElevation := getResortElevation d
    snowBlocks := snowBlocks
    temperatureBlocks := extractBlockData d.tempRow .temperature
    windBlocks := extractBlockData d.windRow .wind
    freezinglevelBlocks := extractBlockData d.flRow .freezingLevel
    rainBlocks := extractBlockData d.rainRow .rain
    phrasesBlocks := extractBlockData d.phrasesRow .phrases
    maxSnowBlockLength := findMaxBlockLength snowBlocks }

/-- The in-memory cache (src/index.js line 13), keyed by URL. -/
def Cache : Type := String → Option ScrapeResult

/-- `cache[url] = result`: store a result under a key, leaving every other
key untouched. -/
def Cache.update (c : Cache) (url : String) (r : ScrapeResult) : Cache :=
  fun k => if k = url then some r else c k

/-- An HTTP response of the `/scrape` route, with the JSON body fields the
handler sets (absent fields are `none`). -/
structure HttpResponse where
  status : Nat
  success : Bool
  cached : Option Bool
  data : Option ScrapeResult
  error : Option String
deriving DecidableEq, Repr

/-- The `GET /scrape` handler (src/index.js lines 161-191). `query` is the
`url` query parameter (`none` when absent; the empty string is falsy in JS,
so `!url` also rejects it with 400). `pipeline` is the outcome `scrapeUrl`
would produce for this URL now — `Except.error` models a thrown fetch/parse
failure. Returns the response sent, the cache after the handler returns, and
whether a background refresh was scheduled (the cache-hit path, lines
174-180). -/
def handleScrape : Option String → Cache → Except String ScrapeResult →
    HttpResponse × Cache × Bool
  | none, c, _ =>
    ({ status := 400, success := false, cached := none, data := none,
       error := some "Missing ?url=" }, c, false)
  | some url, c, pipeline =>
    if url = "" then
      ({ status := 400, success := false, cached := none, data := none,
         error := some "Missing ?url=" }, c, false)
    else
      match c url with
      | some cachedData =>
        ({ status := 200, success := true, cached := some true,
           data := some cachedData, error := none }, c, true)
      | none =>
        match pipeline with
        | .ok result =>
          ({ status := 200, success := true, cached := some false,
             data := some result, error := none }, Cache.update c url result, false)
        | .error msg =>
          ({ status := 500, success := false, cached := none, data := none,
             error := some msg }, c, false)

/-- The background refresh scheduled on a cache hit (src/index.js lines
174-180): on success the new data overwrites the entry wholesale; a thrown
refresh is caught by `.catch`, which only logs — the cache is untouched and
no caller sees the failure. -/
def applyRefresh (c : Cache) (url : String)
    (outcome : Except String ScrapeResult) : Cache :=
  match outcome with
  | .ok newData => Cache.update c url newData
  | .error _ => c

/-! Concrete fixtures used by witnesses and counterexamples. -/

/-- A cell whose per-type data is uniform: handy concrete fixture. -/
def mkCell (present : Bool) (v : Option Rat) (b : Bool) : Cell :=
  { container := fun _ => present, raw := fun _ => v, phraseText := "",
    border := fun _ => b, throws := fun _ => false }

/-- A cell with no container for any data type: skipped by the extractor. -/
def absentCell : Cell := mkCell false none false

/-- A cell whose extraction throws for every data type. -/
def throwsCell : Cell :=
  { container := fun _ => true, raw := fun _ => some 1, phraseText := "",
    border := fun _ => false, throws := fun _ => true }

/-- Six all-present cells with the border marker on indices 2 and 5. -/
def cells6 : List Cell :=
  [mkCell true (some 0) false, mkCell true (some 1) false, mkCell true (some 2) true,
   mkCell true (some 3) false, mkCell true (some 4) false, mkCell true (some 5) true]

/-- A document with no forecast rows and no elevation list. -/
def docEmpty : Document :=
  { snowRow := [], tempRow := [], windRow := [], flRow := [],
    rainRow := [], phrasesRow := [], elevationList := none }

/-- A document whose elevation height text is non-numeric. -/
def docAbc : Document := { docEmpty with elevationList := some "abc" }

/-- A concrete scrape result. -/
def r0 : ScrapeResult := scrapeUrl "u" docEmpty

/-- The empty cache. -/
def emptyCache : Cache := fun _ => none

/-- A cache holding `r0` under key `"u"`. -/
def cache0 : Cache := Cache.update emptyCache "u" r0

/-! Helper lemmas about the segmenter. -/

/-- Conservation with an explicit remainder: the values in the closed blocks
followed by the values still pending in the accumulator when the loop ends
are exactly the starting accumulator followed by the present values of the
row. -/
theorem segGo_flatten (t : DataType) (cells : List Cell) :
    ∀ cur, (segGo t cells cur).flatten ++ finalPending t cells cur
      = cur ++ presentVals t cells := by
  induction cells with
  | nil => intro cur; simp [segGo, finalPending, presentVals]
  | cons c rest ih =>
    intro cur
    cases hec : extractCell c t with
    | none =>
      simp only [segGo, finalPending, hec]
      rw [ih cur]
      simp [presentVals, List.filterMap_cons, hec]
    | some vb =>
      obtain ⟨v, b⟩ := vb
      simp only [segGo, finalPending, hec]
      by_cases hcl : (b || rest.isEmpty) = true
      · rw [if_pos hcl, if_pos hcl]
        rw [List.flatten_cons, List.append_assoc, ih []]
        simp [presentVals, List.filterMap_cons, hec]
      · rw [if_neg hcl, if_neg hcl]
        rw [ih (cur ++ [v])]
        simp [presentVals, List.filterMap_cons, hec]

/-- When the last cell of the row is present, the accumulator is always
closed out by the end-of-row condition, so nothing is pending at the end. -/
theorem finalPending_last_present (t : DataType) (c : Cell)
    (hlast : extractCell c t ≠ none) :
    ∀ (cells : List Cell) (cur : List Val), finalPending t (cells ++ [c]) cur = [] := by
  intro cells
  induction cells with
  | nil =>
    intro cur
    obtain ⟨⟨v, b⟩, hec⟩ := Option.ne_none_iff_exists'.mp hlast
    simp [finalPending, hec]
  | cons c' rest ih =>
    intro cur
    cases hec : extractCell c' t with
    | none => simp only [List.cons_append, finalPending, hec]; exact ih _
    | some vb =>
      obtain ⟨v, b⟩ := vb
      simp only [List.cons_append, finalPending, hec]
      split <;> exact ih _

/-- Every block the loop pushes is nonempty: a block is closed only right
after a value was appended to it. -/
theorem segGo_mem_ne_nil (t : DataType) (cells : List Cell) :
    ∀ cur b, b ∈ segGo t cells cur → b ≠ [] := by
  induction cells with
  | nil => intro cur b hb; simp [segGo] at hb
  | cons c rest ih =>
    intro cur b hb
    cases hec : extractCell c t with
    | none =>
      rw [segGo, hec] at hb
      exact ih cur b hb
    | some vb =>
      obtain ⟨v, b'⟩ := vb
      simp only [segGo, hec] at hb
      by_cases hcl : (b' || rest.isEmpty) = true
      · rw [if_pos hcl] at hb
        rcases List.mem_cons.mp hb with h | h
        · subst h; simp
        · exact ih [] b h
      · rw [if_neg hcl] at hb
        exact ih (cur ++ [v]) b hb

/-- A row with no present cells produces no blocks at all. -/
theorem segGo_eq_nil_of_no_present (t : DataType) (cells : List Cell)
    (h : presentVals t cells = []) : ∀ cur, segGo t cells cur = [] := by
  induction cells with
  | nil => intro cur; simp [segGo]
  | cons c rest ih =>
    intro cur
    cases hec : extractCell c t with
    | none =>
      rw [segGo, hec]
      refine ih ?_ cur
      simpa [presentVals, List.filterMap_cons, hec] using h
    | some vb =>
      exfalso
      simp [presentVals, List.filterMap_cons, hec] at h

/-- Two cells the extractor skips are interchangeable inside a row. -/
theorem segGo_skip_congr (t : DataType) (c c' : Cell)
    (h : extractCell c t = none) (h' : extractCell c' t = none) :
    ∀ (pre post : List Cell) (cur : List Val),
      segGo t (pre ++ c :: post) cur = segGo t (pre ++ c' :: post) cur := by
  intro pre
  induction pre with
  | nil =>
    intro post cur
    simp only [List.nil_append, segGo, h, h']
  | cons c'' pre ih =>
    intro post cur
    have hne1 : (pre.append (c :: post)).isEmpty = false := by cases pre <;> rfl
    have hne2 : (pre.append (c' :: post)).isEmpty = false := by cases pre <;> rfl
    cases hec : extractCell c'' t with
    | none => simp only [List.cons_append, segGo, hec]; exact ih post cur
    | some vb =>
      obtain ⟨v, b⟩ := vb
      simp only [List.cons_append, segGo, hec, hne1, hne2]
      by_cases hb : (b || false) = true
      · rw [if_pos hb, if_pos hb]
        exact congrArg _ (ih post [])
      · rw [if_neg hb, if_neg hb]
        exact ih post (cur ++ [v])

/-! Helper lemmas about `foldl max`. -/

/-- `foldl max` bounds its seed and every list element from above. -/
theorem foldl_max_le (l : List Nat) :
    ∀ a, a ≤ l.foldl max a ∧ ∀ x ∈ l, x ≤ l.foldl max a := by
  induction l with
  | nil => intro a; exact ⟨le_refl a, by simp⟩
  | cons x xs ih =>
    intro a
    have h := ih (max a x)
    refine ⟨le_trans (le_max_left a x) h.1, ?_⟩
    intro y hy
    rcases List.mem_cons.mp hy with h' | h'
    · rw [h']; exact le_trans (le_max_right a x) h.1
    · exact h.2 y h'

/-- `foldl max` returns its seed or one of the list elements. -/
theorem foldl_max_mem (l : List Nat) :
    ∀ a, l.foldl max a = a ∨ l.foldl max a ∈ l := by
  induction l with
  | nil => intro a; left; rfl
  | cons x xs ih =>
    intro a
    rcases ih (max a x) with h | h
    · rcases max_choice a x with h' | h'
      · left; rw [List.foldl_cons, h, h']
      · right; rw [List.foldl_cons, h, h']; exact List.mem_cons_self x xs
    · right
      exact List.mem_cons_of_mem x h

/-! Claim theorems. -/

/-- C1 is false as stated: a present unmarked cell followed by a trailing
non-present cell loses its value — the skipped last cell never reaches the
end-of-row boundary check (the `return` at src/index.js line 82 precedes it),
so the open block is dropped and the concatenation of the produced blocks is
empty while the row has one present value. -/
theorem c1_counterexample :
    (extractBlockData [mkCell true (some 5) false, absentCell] .snow).flatten
      ≠ presentVals .snow [mkCell true (some 5) false, absentCell] := by
  decide

/-- C1 (amended): for every data type and every row whose last cell is
reported present by the cell value extractor, the concatenation of the
produced block sequence equals, in order, the extracted values of all
present cells of the row — no value is lost, duplicated, or reordered.
(When the row ends in a run of non-present cells, the values pending since
the last boundary marker are dropped instead.) -/
theorem c1_concat (t : DataType) (cells : List Cell) (c : Cell)
    (hlast : extractCell c t ≠ none) :
    (extractBlockData (cells ++ [c]) t).flatten = presentVals t (cells ++ [c]) := by
  have h := segGo_flatten t (cells ++ [c]) []
  rw [finalPending_last_present t c hlast cells [], List.append_nil, List.nil_append] at h
  have hne : (cells ++ [c]).isEmpty = false := by cases cells <;> rfl
  unfold extractBlockData
  rw [hne]
  simpa using h

/-- C1 witness: a concrete two-cell row ending in a present cell. -/
theorem c1_concat_witness :
    (extractBlockData [mkCell true (some 5) false, mkCell true (some 7) false] .snow).flatten
      = presentVals .snow [mkCell true (some 5) false, mkCell true (some 7) false] :=
  c1_concat .snow [mkCell true (some 5) false] (mkCell true (some 7) false) (by decide)

/-- C4 is false as stated: six all-present cells with the boundary marker on
indices 2 and 5 yield two blocks of lengths 3 and 3 (the marker on the last
cell closes the second block; there is no seventh cell to populate a third
block), not three blocks of lengths 3, 3, 1. -/
theorem c4_counterexample :
    (extractBlockData cells6 .snow).map List.length ≠ [3, 3, 1] := by
  decide

/-- C4 (amended): a 6-cell row in which every cell is present and the cells
at indices 2 and 5 carry the boundary marker produces exactly 2 blocks of
lengths 3 and 3, with block boundaries falling immediately after the marked
cells (values 0,1,2 in the first block and 3,4,5 in the second). -/
theorem c4_blocks :
    extractBlockData cells6 .snow
        = [[Val.num 0, Val.num 1, Val.num 2], [Val.num 3, Val.num 4, Val.num 5]]
      ∧ (extractBlockData cells6 .snow).map List.length = [3, 3] := by
  decide

/-- C6: every produced block has length at least 1, and a row with no
present cells — in particular an empty row — yields an empty block
sequence. -/
theorem c6_blocks_nonempty (t : DataType) (cells : List Cell) :
    (∀ b ∈ extractBlockData cells t, 1 ≤ b.length)
      ∧ (presentVals t cells = [] → extractBlockData cells t = []) := by
  constructor
  · intro b hb
    by_cases hce : cells.isEmpty = true
    · unfold extractBlockData at hb
      rw [if_pos hce] at hb
      simp at hb
    · unfold extractBlockData at hb
      rw [if_neg hce] at hb
      exact List.length_pos.mpr (segGo_mem_ne_nil t cells [] b hb)
  · intro h
    by_cases hce : cells.isEmpty = true
    · unfold extractBlockData
      rw [if_pos hce]
    · unfold extractBlockData
      rw [if_neg hce]
      exact segGo_eq_nil_of_no_present t cells h []

/-- C6 witness: a singleton present row yields one block of length 1, and a
row of one absent cell yields no blocks. -/
theorem c6_blocks_nonempty_witness :
    1 ≤ (List.length [Val.num 5]) ∧ extractBlockData [absentCell] .snow = [] :=
  ⟨(c6_blocks_nonempty .snow [mkCell true (some 5) false]).1 [Val.num 5] (by decide),
   (c6_blocks_nonempty .snow [absentCell]).2 (by decide)⟩

/-- C5 is false as stated: when the height text is nonempty but does not
parse as an integer, `parseInt` yields `NaN` and `getResortElevation`
returns it unchanged — the stored `bottomElevation` is `NaN`, not `null`
(the null branch only covers an absent list or an empty, falsy text). -/
theorem c5_counterexample :
    parseIntJS "abc" = none
      ∧ (scrapeUrl "u" docAbc).bottomElevation = ElevationValue.nan
      ∧ (scrapeUrl "u" docAbc).bottomElevation ≠ ElevationValue.null := by
  decide

/-- C5 (amended): `bottomElevation` is `null` when the elevation indicator
is absent from the document or its text is empty; when the text is nonempty
but does not parse as an integer the result is `NaN` rather than `null`;
when it parses, the parsed integer is stored. -/
theorem c5_elevation (url : String) (d : Document) (s : String) (n : Int) :
    (d.elevationList = none → (scrapeUrl url d).bottomElevation = .null)
    ∧ (d.elevationList = some "" → (scrapeUrl url d).bottomElevation = .null)
    ∧ (d.elevationList = some s → s ≠ "" → parseIntJS s = none →
        (scrapeUrl url d).bottomElevation = .nan)
    ∧ (d.elevationList = some s → s ≠ "" → parseIntJS s = some n →
        (scrapeUrl url d).bottomElevation = .int n) := by
  have hbe : (scrapeUrl url d).bottomElevation = getResortElevation d := rfl
  refine ⟨?_, ?_, ?_, ?_⟩
  · intro h
    rw [hbe]
    unfold getResortElevation
    rw [h]
  · intro h
    rw [hbe]
    unfold getResortElevation
    rw [h]
    decide
  · intro h hs hp
    rw [hbe]
    unfold getResortElevation
    rw [h]
    simp only [if_neg hs, hp]
  · intro h hs hp
    rw [hbe]
    unfold getResortElevation
    rw [h]
    simp only [if_neg hs, hp]

/-- C5 witness: an absent indicator yields `null`; the text `"abc"` yields
`NaN`. -/
theorem c5_elevation_witness :
    (scrapeUrl "u" docEmpty).bottomElevation = ElevationValue.null
      ∧ (scrapeUrl "u" docAbc).bottomElevation = ElevationValue.nan :=
  ⟨(c5_elevation "u" docEmpty "x" 0).1 rfl,
   (c5_elevation "u" docAbc "abc" 0).2.2.1 rfl (by decide) (by decide)⟩

/-- C7: `maxSnowBlockLength` is computed by `findMaxBlockLength` on the snow
blocks; `findMaxBlockLength` is 0 on the empty sequence and otherwise the
maximum block length (an upper bound attained by some block); concretely
`[[1,2],[3]]` gives 2 and `[]` gives 0. -/
theorem c7_max_snow (url : String) (d : Document) (blocks : List (List Val)) :
    (scrapeUrl url d).maxSnowBlockLength = findMaxBlockLength (scrapeUrl url d).snowBlocks
    ∧ (blocks = [] → findMaxBlockLength blocks = 0)
    ∧ (∀ b ∈ blocks, b.length ≤ findMaxBlockLength blocks)
    ∧ (blocks ≠ [] → ∃ b ∈ blocks, b.length = findMaxBlockLength blocks)
    ∧ findMaxBlockLength [[Val.num 1, Val.num 2], [Val.num 3]] = 2
    ∧ findMaxBlockLength [] = 0 := by
  refine ⟨rfl, ?_, ?_, ?_, by decide, rfl⟩
  · intro h
    subst h
    rfl
  · intro b hb
    cases blocks with
    | nil => simp at hb
    | cons x xs =>
      unfold findMaxBlockLength
      rw [if_neg (by simp)]
      exact (foldl_max_le ((x :: xs).map List.length) 0).2 b.length
        (List.mem_map.mpr ⟨b, hb, rfl⟩)
  · intro hne
    cases blocks with
    | nil => exact absurd rfl hne
    | cons x xs =>
      unfold findMaxBlockLength
      rw [if_neg (by simp)]
      rcases foldl_max_mem ((x :: xs).map List.length) 0 with h | h
      · refine ⟨x, List.mem_cons_self x xs, ?_⟩
        have hle := (foldl_max_le ((x :: xs).map List.length) 0).2 x.length (by simp)
        omega
      · rcases List.mem_map.mp h with ⟨b, hb, hlen⟩
        exact ⟨b, hb, hlen⟩

/-- C7 witness: the two concrete block sequences of the claim. -/
theorem c7_max_snow_witness :
    findMaxBlockLength [] = 0
      ∧ ∃ b ∈ [[Val.num 1, Val.num 2], [Val.num 3]],
          List.length b = findMaxBlockLength [[Val.num 1, Val.num 2], [Val.num 3]] :=
  ⟨(c7_max_snow "u" docEmpty []).2.1 rfl,
   (c7_max_snow "u" docEmpty [[Val.num 1, Val.num 2], [Val.num 3]]).2.2.2.1 (by decide)⟩

/-- C8: a present cell with numeric raw value `v` extracts to `v` for snow
and wind, `v + 1` for temperature, `v + 100` for freezing level, and
`v / 10` for rain; concretely temperature 5 ↦ 6, rain 20 ↦ 2, freezing
level 1000 ↦ 1100. -/
theorem c8_transforms (c : Cell) (v : Rat) (t : DataType)
    (hth : c.throws t = false) (hco : c.container t = true) (hraw : c.raw t = some v) :
    (t = .snow → extractCell c t = some (.num v, c.border t))
    ∧ (t = .temperature → extractCell c t = some (.num (v + 1), c.border t))
    ∧ (t = .wind → extractCell c t = some (.num v, c.border t))
    ∧ (t = .freezingLevel → extractCell c t = some (.num (v + 100), c.border t))
    ∧ (t = .rain → extractCell c t = some (.num (v / 10), c.border t))
    ∧ extractCell (mkCell true (some 5) false) .temperature
        = some (.num 6, (mkCell true (some 5) false).border .temperature)
    ∧ extractCell (mkCell true (some 20) false) .rain
        = some (.num 2, (mkCell true (some 20) false).border .rain)
    ∧ extractCell (mkCell true (some 1000) false) .freezingLevel
        = some (.num 1100, (mkCell true (some 1000) false).border .freezingLevel) := by
  refine ⟨?_, ?_, ?_, ?_, ?_, ?_, ?_, ?_⟩
  · intro ht; subst ht; simp [extractCell, transform, hth, hco, hraw]
  · intro ht; subst ht; simp [extractCell, transform, hth, hco, hraw]
  · intro ht; subst ht; simp [extractCell, transform, hth, hco, hraw]
  · intro ht; subst ht; simp [extractCell, transform, hth, hco, hraw]
  · intro ht; subst ht; simp [extractCell, transform, hth, hco, hraw]
  · norm_num [extractCell, transform, mkCell]
    exact fun h => nomatch h
  · norm_num [extractCell, transform, mkCell]
    exact fun h => nomatch h
  · norm_num [extractCell, transform, mkCell]
    exact fun h => nomatch h

/-- C8 witness: the temperature transform at raw value 5. -/
theorem c8_transforms_witness :
    extractCell (mkCell true (some 5) false) .temperature
      = some (.num (5 + 1), (mkCell true (some 5) false).border .temperature) :=
  (c8_transforms (mkCell true (some 5) false) 5 .temperature rfl rfl rfl).2.1 rfl

/-- C9: for a numeric data type, a cell whose container is present but whose
raw attribute is missing contributes the sentinel `'-'` to the current block
(a one-cell row yields the block `['-']`), and a cell whose extraction
throws behaves exactly like a cell with no container: the rest of the row is
segmented as if that cell were absent. -/
theorem c9_cell_errors (t : DataType) (c : Cell) (pre post : List Cell)
    (hnum : t ≠ .phrases) :
    (c.throws t = false → c.container t = true → c.raw t = none →
        extractCell c t = some (.dash, c.border t)
          ∧ extractBlockData [c] t = [[Val.dash]])
    ∧ (c.throws t = true →
        extractBlockData (pre ++ c :: post) t
          = extractBlockData (pre ++ absentCell :: post) t) := by
  constructor
  · intro hth hco hraw
    have hec : extractCell c t = some (.dash, c.border t) := by
      simp [extractCell, hth, hco, hraw, hnum]
    refine ⟨hec, ?_⟩
    unfold extractBlockData
    rw [if_neg (by simp)]
    simp [segGo, hec]
  · intro hth
    have hec : extractCell c t = none := by simp [extractCell, hth]
    have hec' : extractCell absentCell t = none := rfl
    have hemp1 : (pre ++ c :: post).isEmpty = false := by cases pre <;> rfl
    have hemp2 : (pre ++ absentCell :: post).isEmpty = false := by cases pre <;> rfl
    unfold extractBlockData
    rw [hemp1, hemp2]
    simp only [Bool.false_eq_true, if_false]
    exact segGo_skip_congr t c absentCell hec hec' pre post []

/-- C9 witness: a raw-less present cell gives the `'-'` block, and a
throwing cell is interchangeable with an absent one. -/
theorem c9_cell_errors_witness :
    (extractCell (mkCell true none false) .snow
        = some (.dash, (mkCell true none false).border .snow)
      ∧ extractBlockData [mkCell true none false] .snow = [[Val.dash]])
    ∧ extractBlockData ([mkCell true (some 5) false] ++ throwsCell :: []) .snow
        = extractBlockData ([mkCell true (some 5) false] ++ absentCell :: []) .snow :=
  ⟨(c9_cell_errors .snow (mkCell true none false) [] [] (by decide)).1 rfl rfl rfl,
   (c9_cell_errors .snow throwsCell [mkCell true (some 5) false] [] (by decide)).2 rfl⟩

/-- C2: on a cache hit the handler replies 200 with `cached = true` and
exactly the stored result, leaving the cache untouched and scheduling a
background refresh — whatever the pipeline outcome `p` is, so a refresh
failure is never surfaced to the caller; the refresh itself overwrites the
entry wholesale on success and leaves the cache entirely unchanged on
failure. -/
theorem c2_cache_hit (url : String) (c : Cache) (r : ScrapeResult)
    (p : Except String ScrapeResult) (hu : url ≠ "") (hc : c url = some r) :
    handleScrape (some url) c p
      = ({ status := 200, success := true, cached := some true,
           data := some r, error := none }, c, true)
    ∧ (∀ newData, applyRefresh c url (.ok newData) = Cache.update c url newData)
    ∧ (∀ msg, applyRefresh c url (.error msg) = c) := by
  refine ⟨?_, fun _ => rfl, fun _ => rfl⟩
  simp only [handleScrape]
  rw [if_neg hu, hc]

/-- C2 witness: a concrete cache holding `r0` under `"u"`, hit while the
pipeline would fail. -/
theorem c2_cache_hit_witness :
    handleScrape (some "u") cache0 (.error "boom")
      = ({ status := 200, success := true, cached := some true,
           data := some r0, error := none }, cache0, true)
    ∧ applyRefresh cache0 "u" (.error "boom") = cache0 :=
  ⟨(c2_cache_hit "u" cache0 r0 (.error "boom") (by decide) (by decide)).1,
   (c2_cache_hit "u" cache0 r0 (.error "boom") (by decide) (by decide)).2.2 "boom"⟩

/-- C3: on a cache miss the pipeline runs synchronously; on success the
result is stored under the key and returned with `cached = false`, and on
failure the handler replies 500 with the error message, the cache still has
no entry for the key, and nothing was stored. -/
theorem c3_cache_miss (url : String) (c : Cache) (r : ScrapeResult) (msg : String)
    (hu : url ≠ "") (hc : c url = none) :
    (handleScrape (some url) c (.ok r)
        = ({ status := 200, success := true, cached := some false,
             data := some r, error := none }, Cache.update c url r, false)
      ∧ Cache.update c url r url = some r)
    ∧ (handleScrape (some url) c (.error msg)
        = ({ status := 500, success := false, cached := none,
             data := none, error := some msg }, c, false)
      ∧ c url = none) := by
  refine ⟨⟨?_, ?_⟩, ⟨?_, hc⟩⟩
  · simp only [handleScrape]
    rw [if_neg hu, hc]
  · unfold Cache.update
    rw [if_pos rfl]
  · simp only [handleScrape]
    rw [if_neg hu, hc]

/-- C3 witness: a miss on the empty cache, with both a succeeding and a
failing pipeline. -/
theorem c3_cache_miss_witness :
    (handleScrape (some "u") emptyCache (.ok r0)
        = ({ status := 200, success := true, cached := some false,
             data := some r0, error := none }, Cache.update emptyCache "u" r0, false)
      ∧ Cache.update emptyCache "u" r0 "u" = some r0)
    ∧ (handleScrape (some "u") emptyCache (.error "boom")
        = ({ status := 500, success := false, cached := none,
             data := none, error := some "boom" }, emptyCache, false)
      ∧ emptyCache "u" = none) :=
  c3_cache_miss "u" emptyCache r0 "boom" (by decide) rfl

/-- C10: a request with no `url` query parameter is answered 400 with
exactly the body `{success: false, error: 'Missing ?url='}`; the returned
cache is the input cache for every key, no background refresh is scheduled,
and the outcome is the same for every pipeline outcome `p` — the pipeline
is never consulted. -/
theorem c10_missing_url (c : Cache) (p : Except String ScrapeResult) :
    handleScrape none c p
      = ({ status := 400, success := false, cached := none, data := none,
           error := some "Missing ?url=" }, c, false) := rfl

end SnowScraper
